import Mathlib

/-!
Verification of the RISC-V 64 linker backend (src/elf/arch-riscv64.cc).

Machine integers are modelled as `Nat` with explicit reduction `% 2 ^ w`
wherever the C code's fixed-width arithmetic can wrap.  Signed quantities
(relocation addends) are `Int`, reduced to an unsigned representative with
`toU64` at the points where the C code stores them through an unsigned
pointer.  The output buffer is a byte map `Nat → Nat`, written through
little-endian multi-byte stores that truncate exactly as the C stores do.
-/

namespace Mold.RiscV64

/-! ### Bit-field codec (arch-riscv64.cc lines 10-92) -/

/-- Source `bit(val, pos)`: `(val & (1 << pos)) ? 1 : 0`. -/
def bit (val : Nat) (pos : Nat) : Nat :=
  if val &&& (1 <<< pos) = 0 then 0 else 1

/-- Source `bits(val, hi, lo)`: returns `[hi:lo]` bits of `val`. -/
def bits (val : Nat) (hi lo : Nat) : Nat :=
  (val >>> lo) &&& ((1 <<< (hi - lo + 1)) - 1)

/-- Source `itype(val) = val << 20` on u32 (the shift wraps mod 2^32). -/
def itype (val : Nat) : Nat :=
  (val <<< 20) % 2 ^ 32

/-- Source `stype(val) = bits(val,11,5) << 25 | bits(val,4,0) << 7` (no u32 wrap occurs). -/
def stype (val : Nat) : Nat :=
  bits val 11 5 <<< 25 ||| bits val 4 0 <<< 7

/-- Source `btype(val)`. -/
def btype (val : Nat) : Nat :=
  bit val 12 <<< 31 ||| bits val 10 5 <<< 25 ||| bits val 4 1 <<< 8 ||| bit val 11 <<< 7

/-- Source `utype(val)`: upper 20 bits of `val + 0x800` (u32 addition, wrapping),
    placed at bits 31:12.  The `0x800` compensates for the sign extension
    performed by the paired I-type instruction. -/
def utype (val : Nat) : Nat :=
  bits ((val + 0x800) % 2 ^ 32) 31 12 <<< 12

/-- Source `jtype(val)`. -/
def jtype (val : Nat) : Nat :=
  bit val 20 <<< 31 ||| bits val 10 1 <<< 21 ||| bit val 11 <<< 20 ||| bits val 19 12 <<< 12

/-- Source `cbtype(val)`. -/
def cbtype (val : Nat) : Nat :=
  bit val 8 <<< 12 ||| bit val 4 <<< 11 ||| bit val 3 <<< 10 |||
  bit val 7 <<< 6 ||| bit val 6 <<< 5 ||| bit val 2 <<< 4 |||
  bit val 1 <<< 3 ||| bit val 5 <<< 2

/-- Source `cjtype(val)`. -/
def cjtype (val : Nat) : Nat :=
  bit val 11 <<< 12 ||| bit val 4 <<< 11 ||| bit val 9 <<< 10 |||
  bit val 8 <<< 9 ||| bit val 10 <<< 8 ||| bit val 6 <<< 7 |||
  bit val 7 <<< 6 ||| bit val 3 <<< 5 ||| bit val 2 <<< 4 |||
  bit val 1 <<< 3 ||| bit val 5 <<< 2

/-- Source `write_itype`: mask `0b000000'00000'11111'111'11111'1111111` = `0xFFFFF`. -/
def write_itype (loc val : Nat) : Nat :=
  (loc &&& 0xFFFFF) ||| itype val

/-- Source `write_stype`: mask `0b000000'11111'11111'111'00000'1111111` = `0x1FFF07F`. -/
def write_stype (loc val : Nat) : Nat :=
  (loc &&& 0x1FFF07F) ||| stype val

/-- Source `write_btype`: same mask as `write_stype`. -/
def write_btype (loc val : Nat) : Nat :=
  (loc &&& 0x1FFF07F) ||| btype val

/-- Source `write_utype`: mask `0b000000'00000'00000'000'11111'1111111` = `0xFFF`. -/
def write_utype (loc val : Nat) : Nat :=
  (loc &&& 0xFFF) ||| utype val

/-- Source `write_jtype`: same mask as `write_utype`. -/
def write_jtype (loc val : Nat) : Nat :=
  (loc &&& 0xFFF) ||| jtype val

/-- Source `write_cbtype`: 16-bit word, mask `0b1110001110000011` = `0xE383`. -/
def write_cbtype (loc val : Nat) : Nat :=
  (loc &&& 0xE383) ||| cbtype val

/-- Source `write_cjtype`: 16-bit word, mask `0b1110000000000011` = `0xE003`. -/
def write_cjtype (loc val : Nat) : Nat :=
  (loc &&& 0xE003) ||| cjtype val

/-! ### Arithmetic bridge lemmas for the codec -/

theorem bits_eq (val hi lo : Nat) :
    bits val hi lo = val / 2 ^ lo % 2 ^ (hi - lo + 1) := by
  unfold bits
  rw [Nat.shiftRight_eq_div_pow, Nat.one_shiftLeft, Nat.and_pow_two_sub_one_eq_mod]

theorem or_mod_two_pow (a b n : Nat) :
    (a ||| b) % 2 ^ n = a % 2 ^ n ||| b % 2 ^ n := by
  apply Nat.eq_of_testBit_eq
  intro i
  by_cases h : i < n <;>
    simp [Nat.testBit_or, Nat.testBit_mod_two_pow, h, Bool.and_or_distrib_left]

theorem or_div_two_pow (a b n : Nat) :
    (a ||| b) / 2 ^ n = a / 2 ^ n ||| b / 2 ^ n := by
  induction n with
  | zero => simp
  | succ k ih =>
      rw [pow_succ, ← Nat.div_div_eq_div_mul, ← Nat.div_div_eq_div_mul,
        ← Nat.div_div_eq_div_mul, ih, Nat.or_div_two]

/-- A bitwise `or` of a low part below `2 ^ k` with a value shifted left by `k`
    is just their sum. -/
theorem or_shiftLeft_eq_add {a : Nat} (b k : Nat) (h : a < 2 ^ k) :
    a ||| b <<< k = a + b * 2 ^ k := by
  have hmod : (a ||| b <<< k) % 2 ^ k = a := by
    rw [or_mod_two_pow, Nat.shiftLeft_eq, Nat.mul_mod_left, Nat.or_zero,
      Nat.mod_eq_of_lt h]
  have hdiv : (a ||| b <<< k) / 2 ^ k = b := by
    rw [or_div_two_pow, Nat.shiftLeft_eq, Nat.div_eq_of_lt h,
      Nat.mul_div_cancel _ (Nat.two_pow_pos k)]
    simp
  have h2 := Nat.div_add_mod (a ||| b <<< k) (2 ^ k)
  rw [hdiv, hmod] at h2
  rw [← h2]
  ring

/-- Variant of `or_shiftLeft_eq_add` stated with multiplication. -/
theorem or_mul_pow_eq_add (a b k : Nat) (h : a < 2 ^ k) :
    a ||| b * 2 ^ k = a + b * 2 ^ k := by
  conv_lhs => rw [← Nat.shiftLeft_eq]
  exact or_shiftLeft_eq_add b k h

theorem itype_eq (val : Nat) : itype val = val % 2 ^ 12 * 2 ^ 20 := by
  unfold itype
  rw [Nat.shiftLeft_eq]
  have h32 : (2 : Nat) ^ 32 = 2 ^ 12 * 2 ^ 20 := by norm_num
  rw [h32, Nat.mul_mod_mul_right]

theorem utype_eq (val : Nat) :
    utype val = (val + 0x800) % 2 ^ 32 / 2 ^ 12 * 2 ^ 12 := by
  unfold utype
  rw [bits_eq, Nat.shiftLeft_eq]
  have h20 : (31 - 12 + 1 : Nat) = 20 := rfl
  have h : (val + 0x800) % 2 ^ 32 / 2 ^ 12 < 2 ^ 20 := by omega
  rw [h20, Nat.mod_eq_of_lt h]

theorem write_itype_eq (loc val : Nat) :
    write_itype loc val = loc % 2 ^ 20 + val % 2 ^ 12 * 2 ^ 20 := by
  unfold write_itype
  have hm : (0xFFFFF : Nat) = 2 ^ 20 - 1 := by norm_num
  rw [hm, Nat.and_pow_two_sub_one_eq_mod, itype_eq]
  exact or_mul_pow_eq_add _ _ _ (by omega)

theorem write_utype_eq (loc val : Nat) :
    write_utype loc val = loc % 2 ^ 12 + (val + 0x800) % 2 ^ 32 / 2 ^ 12 * 2 ^ 12 := by
  unfold write_utype
  have hm : (0xFFF : Nat) = 2 ^ 12 - 1 := by norm_num
  rw [hm, Nat.and_pow_two_sub_one_eq_mod, utype_eq]
  exact or_mul_pow_eq_add _ _ _ (by omega)

theorem write_itype_lt (loc val : Nat) : write_itype loc val < 2 ^ 32 := by
  rw [write_itype_eq]
  have h1 : loc % 2 ^ 20 < 2 ^ 20 := Nat.mod_lt _ (by norm_num)
  have h2 : val % 2 ^ 12 < 2 ^ 12 := Nat.mod_lt _ (by norm_num)
  omega

theorem write_utype_lt (loc val : Nat) : write_utype loc val < 2 ^ 32 := by
  rw [write_utype_eq]
  have h1 : loc % 2 ^ 12 < 2 ^ 12 := Nat.mod_lt _ (by norm_num)
  have h2 : (val + 0x800) % 2 ^ 32 / 2 ^ 12 < 2 ^ 20 := by omega
  omega

/-- The U-field written by `write_utype` only depends on `val` mod 2^32. -/
theorem write_utype_mod (loc val : Nat) :
    write_utype loc (val % 2 ^ 32) = write_utype loc val := by
  rw [write_utype_eq, write_utype_eq]
  have : (val % 2 ^ 32 + 0x800) % 2 ^ 32 = (val + 0x800) % 2 ^ 32 := by
    conv_rhs => rw [← Nat.mod_add_mod]
  rw [this]

/-- The I-field written by `write_itype` only depends on `val` mod 2^32. -/
theorem write_itype_mod (loc val : Nat) :
    write_itype loc (val % 2 ^ 32) = write_itype loc val := by
  rw [write_itype_eq, write_itype_eq,
    Nat.mod_mod_of_dvd val (by norm_num : (2 : Nat) ^ 12 ∣ 2 ^ 32)]

theorem bits_write_itype (loc val : Nat) :
    bits (write_itype loc val) 31 20 = val % 2 ^ 12 := by
  rw [bits_eq, write_itype_eq]
  have h1 : loc % 2 ^ 20 < 2 ^ 20 := Nat.mod_lt _ (by norm_num)
  have h2 : val % 2 ^ 12 < 2 ^ 12 := Nat.mod_lt _ (by norm_num)
  norm_num
  omega

theorem bits_write_utype (loc val : Nat) :
    bits (write_utype loc val) 31 12 = (val + 0x800) % 2 ^ 32 / 2 ^ 12 := by
  rw [bits_eq, write_utype_eq]
  have h1 : loc % 2 ^ 12 < 2 ^ 12 := Nat.mod_lt _ (by norm_num)
  have h2 : (val + 0x800) % 2 ^ 32 / 2 ^ 12 < 2 ^ 20 := by omega
  norm_num
  omega

/-! ### C9: round trip of the U-type / I-type immediate split -/

/-- Sign extension of the low `w` bits of `n`, as RISC-V hardware performs on a
    `w`-bit immediate field. -/
def sext (w : Nat) (n : Nat) : Int :=
  if n % 2 ^ w < 2 ^ (w - 1) then ((n % 2 ^ w : Nat) : Int)
  else ((n % 2 ^ w : Nat) : Int) - 2 ^ w

/-- The unsigned 32-bit representative of a signed value. -/
def toU32 (v : Int) : Nat := (v % (2 ^ 32 : Int)).toNat

/-- Decoding the U+I split: the AUIPC/LUI half contributes its sign-extended
    32-bit U-immediate word, the paired I-type half contributes the
    sign-extended low 12 bits of `v`. -/
def reconstructUI (v : Int) : Int :=
  sext 32 (utype (toU32 v)) + sext 12 (toU32 v % 2 ^ 12)

theorem toU32_int (v : Int) : (toU32 v : Int) = v % 2 ^ 32 := by
  unfold toU32
  exact Int.toNat_of_nonneg (Int.emod_nonneg v (by norm_num))

/-- C9 (amended): for `-2^31 ≤ v < 2^31 - 0x800` the U/I split round-trips
    exactly: `sext32 (utype v) + sext12 (v mod 2^12) = v`. -/
theorem ui_split_roundtrip (v : Int) (h1 : -(2 ^ 31) ≤ v) (h2 : v < 2 ^ 31 - 2 ^ 11) :
    reconstructUI v = v := by
  unfold reconstructUI sext
  have hu := toU32_int v
  have hulo : toU32 v < 2 ^ 32 := by
    have := Int.emod_lt_of_pos v (show (0 : Int) < 2 ^ 32 by norm_num)
    omega
  rw [utype_eq]
  have hlt : (toU32 v + 0x800) % 2 ^ 32 / 2 ^ 12 * 2 ^ 12 < 2 ^ 32 := by omega
  rw [Nat.mod_eq_of_lt hlt]
  have h12 : toU32 v % 2 ^ 12 % 2 ^ 12 = toU32 v % 2 ^ 12 := by omega
  rw [h12]
  split_ifs <;> push_cast <;> omega

/-- C9 witness: the amended round trip evaluated at `v = 4096`. -/
theorem ui_split_roundtrip_witness :
    -(2 ^ 31) ≤ (4096 : Int) ∧ (4096 : Int) < 2 ^ 31 - 2 ^ 11 ∧
    reconstructUI 4096 = 4096 :=
  ⟨by norm_num, by norm_num, ui_split_roundtrip 4096 (by norm_num) (by norm_num)⟩

/-- C9 counterexample: `v = 2^31 - 1` is representable as a 32-bit signed value,
    yet the U/I split does not reconstruct it (it yields `-2^31 - 1`). -/
theorem ui_roundtrip_fails_at_top :
    -(2 ^ 31) ≤ (2147483647 : Int) ∧ (2147483647 : Int) < 2 ^ 31 ∧
    reconstructUI 2147483647 ≠ 2147483647 := by
  refine ⟨by norm_num, by norm_num, ?_⟩
  decide

/-! ### Relocation kinds and the scan-pass classifier (scan_relocations) -/

/-- The RISC-V relocation kinds named in arch-riscv64.cc.  `R_RISCV_RELATIVE`
    appears only as the type tag of emitted dynamic records; it reaches the
    `default:` (unknown relocation) arm of both switches. -/
inductive RType
  | R_RISCV_NONE
  | R_RISCV_32
  | R_RISCV_64
  | R_RISCV_RELATIVE
  | R_RISCV_BRANCH
  | R_RISCV_JAL
  | R_RISCV_CALL
  | R_RISCV_CALL_PLT
  | R_RISCV_GOT_HI20
  | R_RISCV_TLS_GOT_HI20
  | R_RISCV_TLS_GD_HI20
  | R_RISCV_PCREL_HI20
  | R_RISCV_PCREL_LO12_I
  | R_RISCV_PCREL_LO12_S
  | R_RISCV_HI20
  | R_RISCV_LO12_I
  | R_RISCV_LO12_S
  | R_RISCV_TPREL_HI20
  | R_RISCV_TPREL_LO12_I
  | R_RISCV_TPREL_LO12_S
  | R_RISCV_TPREL_ADD
  | R_RISCV_ADD8
  | R_RISCV_ADD16
  | R_RISCV_ADD32
  | R_RISCV_ADD64
  | R_RISCV_SUB8
  | R_RISCV_SUB16
  | R_RISCV_SUB32
  | R_RISCV_SUB64
  | R_RISCV_ALIGN
  | R_RISCV_RVC_BRANCH
  | R_RISCV_RVC_JUMP
  | R_RISCV_RVC_LUI
  | R_RISCV_RELAX
  | R_RISCV_SUB6
  | R_RISCV_SET6
  | R_RISCV_SET8
  | R_RISCV_SET16
  | R_RISCV_SET32
  | R_RISCV_32_PCREL
  | R_RISCV_TLS_DTPMOD32
  | R_RISCV_TLS_DTPMOD64
  | R_RISCV_TLS_DTPREL32
  | R_RISCV_TLS_DTPREL64
  | R_RISCV_TLS_TPREL32
  | R_RISCV_TLS_TPREL64
deriving DecidableEq, Repr, Inhabited

/-- Cells of the classifier's Action tables. -/
inductive Action
  | NONE
  | ERROR
  | COPYREL
  | PLT
  | DYNREL
  | BASEREL
deriving DecidableEq, Repr

/-- Action-table rows: the kind of output file being produced. -/
inductive OutputKind
  | DSO
  | PIE
  | PDE
deriving DecidableEq, Repr

/-- Action-table columns: the referenced symbol's category. -/
inductive SymClass
  | Absolute
  | Local
  | ImportedData
  | ImportedCode
deriving DecidableEq, Repr

/-- The Action table for `R_RISCV_32` and `R_RISCV_HI20`
    (scan_relocations, lines 429-434). -/
def scanTable_32_hi20 (row : OutputKind) (col : SymClass) : Action :=
  match row, col with
  | .DSO, .Absolute => .NONE
  | .DSO, .Local => .NONE
  | .DSO, .ImportedData => .ERROR
  | .DSO, .ImportedCode => .ERROR
  | .PIE, .Absolute => .NONE
  | .PIE, .Local => .NONE
  | .PIE, .ImportedData => .COPYREL
  | .PIE, .ImportedCode => .PLT
  | .PDE, .Absolute => .NONE
  | .PDE, .Local => .NONE
  | .PDE, .ImportedData => .COPYREL
  | .PDE, .ImportedCode => .PLT

/-- The Action table for `R_RISCV_64` (scan_relocations, lines 439-444). -/
def scanTable_64 (row : OutputKind) (col : SymClass) : Action :=
  match row, col with
  | .DSO, .Absolute => .NONE
  | .DSO, .Local => .BASEREL
  | .DSO, .ImportedData => .DYNREL
  | .DSO, .ImportedCode => .DYNREL
  | .PIE, .Absolute => .NONE
  | .PIE, .Local => .BASEREL
  | .PIE, .ImportedData => .DYNREL
  | .PIE, .ImportedCode => .DYNREL
  | .PDE, .Absolute => .NONE
  | .PDE, .Local => .NONE
  | .PDE, .ImportedData => .COPYREL
  | .PDE, .ImportedCode => .PLT

/-- The Action table for `R_RISCV_32_PCREL` (scan_relocations, lines 506-511). -/
def scanTable_32_pcrel (row : OutputKind) (col : SymClass) : Action :=
  match row, col with
  | .DSO, .Absolute => .ERROR
  | .DSO, .Local => .NONE
  | .DSO, .ImportedData => .ERROR
  | .DSO, .ImportedCode => .ERROR
  | .PIE, .Absolute => .ERROR
  | .PIE, .Local => .NONE
  | .PIE, .ImportedData => .COPYREL
  | .PIE, .ImportedCode => .PLT
  | .PDE, .Absolute => .NONE
  | .PDE, .Local => .NONE
  | .PDE, .ImportedData => .COPYREL
  | .PDE, .ImportedCode => .PLT

/-- Per-symbol flags the classifier can set. -/
inductive SymFlag
  | needsCopyrel
  | needsPlt
  | needsDynrel
  | needsBaserel
deriving DecidableEq, Repr

/-- What the dispatch helper does with one Action cell. -/
inductive Effect
  | noFlag
  | setFlag (f : SymFlag)
  | fatalError
deriving DecidableEq, Repr

/-- Modelled from the spec: the `dispatch` helper itself is not in src/ (only
    its Action-table arguments are).  Per §4.3, it selects the cell from the
    output-file kind and the symbol category and then either sets the
    corresponding GOT/PLT/copy/dynrel/baserel flag bit on the symbol, does
    nothing, or raises a fatal diagnostic for ERROR cells. -/
def dispatchEffect : Action → Effect
  | .NONE => .noFlag
  | .ERROR => .fatalError
  | .COPYREL => .setFlag .needsCopyrel
  | .PLT => .setFlag .needsPlt
  | .DYNREL => .setFlag .needsDynrel
  | .BASEREL => .setFlag .needsBaserel

/-- Result of the per-relocation switch in `scan_relocations`. -/
inductive ScanRes
  | nothing
  | needsPlt
  | needsGot
  | act (e : Effect)
  | unsupportedError
  | unknownError
deriving DecidableEq, Repr

/-- The per-relocation dispatch of `InputSection::scan_relocations`
    (lines 426-517).  `isImported` is `sym.is_imported`; `row`/`col` index the
    Action tables for the table-driven kinds. -/
def scan_relocations_case (t : RType) (isImported : Bool)
    (row : OutputKind) (col : SymClass) : ScanRes :=
  match t with
  | .R_RISCV_NONE => .nothing
  | .R_RISCV_32 | .R_RISCV_HI20 => .act (dispatchEffect (scanTable_32_hi20 row col))
  | .R_RISCV_64 => .act (dispatchEffect (scanTable_64 row col))
  | .R_RISCV_TLS_DTPMOD32 | .R_RISCV_TLS_DTPMOD64
  | .R_RISCV_TLS_DTPREL32 | .R_RISCV_TLS_DTPREL64
  | .R_RISCV_TLS_TPREL32 | .R_RISCV_TLS_TPREL64 => .unsupportedError
  | .R_RISCV_BRANCH | .R_RISCV_JAL => .nothing
  | .R_RISCV_CALL | .R_RISCV_CALL_PLT =>
      if isImported then .needsPlt else .nothing
  | .R_RISCV_GOT_HI20 => .needsGot
  | .R_RISCV_TLS_GOT_HI20 | .R_RISCV_TLS_GD_HI20 => .unsupportedError
  | .R_RISCV_PCREL_HI20 | .R_RISCV_PCREL_LO12_I | .R_RISCV_PCREL_LO12_S
  | .R_RISCV_LO12_I | .R_RISCV_LO12_S
  | .R_RISCV_TPREL_HI20 | .R_RISCV_TPREL_LO12_I | .R_RISCV_TPREL_LO12_S
  | .R_RISCV_TPREL_ADD
  | .R_RISCV_ADD8 | .R_RISCV_ADD16 | .R_RISCV_ADD32 | .R_RISCV_ADD64
  | .R_RISCV_SUB8 | .R_RISCV_SUB16 | .R_RISCV_SUB32 | .R_RISCV_SUB64
  | .R_RISCV_ALIGN => .nothing
  | .R_RISCV_RVC_BRANCH | .R_RISCV_RVC_JUMP => .nothing
  | .R_RISCV_RVC_LUI => .unsupportedError
  | .R_RISCV_RELAX => .nothing
  | .R_RISCV_SUB6 | .R_RISCV_SET6 | .R_RISCV_SET8
  | .R_RISCV_SET16 | .R_RISCV_SET32 => .unsupportedError
  | .R_RISCV_32_PCREL => .act (dispatchEffect (scanTable_32_pcrel row col))
  | .R_RISCV_RELATIVE => .unknownError

/-- C5: in the `R_RISCV_64` Action table, a local symbol in a shared-object
    output selects BASEREL (not DYNREL), and an imported code symbol in a
    position-dependent executable selects PLT. -/
theorem r64_table_dso_local_baserel_pde_imported_plt :
    scanTable_64 .DSO .Local = .BASEREL ∧
    scanTable_64 .DSO .Local ≠ .DYNREL ∧
    scanTable_64 .PDE .ImportedCode = .PLT := by
  refine ⟨rfl, by decide, rfl⟩

/-- C6: for `R_RISCV_32` / `R_RISCV_HI20` against an imported (data or code)
    symbol in a shared-object output, the classifier reaches an ERROR cell,
    so the dispatch helper raises a fatal diagnostic and sets no flag. -/
theorem abs32_hi20_dso_imported_error :
    scanTable_32_hi20 .DSO .ImportedData = .ERROR ∧
    scanTable_32_hi20 .DSO .ImportedCode = .ERROR ∧
    dispatchEffect (scanTable_32_hi20 .DSO .ImportedData) = .fatalError ∧
    dispatchEffect (scanTable_32_hi20 .DSO .ImportedCode) = .fatalError ∧
    (∀ f : SymFlag, dispatchEffect (scanTable_32_hi20 .DSO .ImportedData) ≠ .setFlag f) ∧
    (∀ f : SymFlag, dispatchEffect (scanTable_32_hi20 .DSO .ImportedCode) ≠ .setFlag f) := by
  refine ⟨rfl, rfl, rfl, rfl, ?_, ?_⟩ <;> intro f <;> cases f <;> decide

/-! ### The output buffer and the relocation applier (apply_reloc_alloc) -/

/-- The output buffer, as a map from byte index to byte value. -/
def Buf := Nat → Nat

/-- A little-endian `n`-byte store at byte offset `off`, truncating `val` to
    `n` bytes exactly as a C store through a `uN*` pointer does. -/
def writeLE (buf : Buf) (off n val : Nat) : Buf :=
  fun i => if off ≤ i ∧ i < off + n then (val >>> (8 * (i - off))) % 256 else buf i

/-- A little-endian `n`-byte load at byte offset `off`. -/
def readLE (buf : Buf) (off : Nat) : Nat → Nat
  | 0 => 0
  | n + 1 => buf off + 256 * readLE buf (off + 1) n

/-- The unsigned 64-bit representative of a signed value: the value all
    wrapping `u64` arithmetic in the applier produces. -/
def toU64 (x : Int) : Nat := (x % (2 ^ 64 : Int)).toNat

/-- Computes `a - b` in wrapping unsigned `w`-bit arithmetic. -/
def wrapSub (a b w : Nat) : Nat := (((a : Int) - b) % ((2 : Int) ^ w)).toNat

/-- The slice of `Symbol<E>` the applier consumes: final address
    (`get_addr`), GOT slot address (`get_got_addr`), dynamic symbol index
    (`get_dynsym_idx`), `value` (for PCREL LO12 pairing this is the section
    offset of the paired HI20 relocation) and the undefined-weak predicate. -/
structure Symbol where
  addr : Nat := 0
  gotAddr : Nat := 0
  dynsymIdx : Nat := 0
  value : Nat := 0
  isUndefWeak : Bool := false
deriving Inhabited

/-- One relocation record. -/
structure ElfRel where
  r_offset : Nat
  r_type : RType
  r_sym : Nat
  r_addend : Int

/-- One relocation together with the per-relocation classifier state the
    applier reads: the `needs_dynrel[i]` / `needs_baserel[i]` bits and whether
    `is_relr_reloc(ctx, rel)` holds.  (`is_relr_reloc` lives outside this
    file; it is represented by a per-relocation flag.) -/
structure RelJob where
  rel : ElfRel
  needsDynrel : Bool := false
  needsBaserel : Bool := false
  isRelr : Bool := false

/-- The section/context data the applier consumes: `secAddr` is
    `output_section->shdr.sh_addr + offset` (so `P = secAddr + r_offset`),
    `contents` the original input-section bytes, `gotAddr` is
    `ctx.got->shdr.sh_addr` and `tlsBegin` is `ctx.tls_begin`.
    Section-fragment overrides (`rel_fragments`) are not modelled: all claims
    concern relocations without a fragment ref. -/
structure Sec where
  secAddr : Nat
  contents : Buf
  gotAddr : Nat := 0
  tlsBegin : Nat := 0

/-- One emitted dynamic-relocation record `{P, type, dynsym index, addend}`. -/
structure DynRel where
  r_offset : Nat
  r_type : RType
  r_sym : Nat
  r_addend : Int

/-- The two fatal diagnostics of the applier's switch. -/
inductive Diag
  | unsupported
  | unknown
deriving DecidableEq, Repr

/-- Applier state: the output buffer, the dynamic relocations appended so far
    (the `dynrel` cursor), and the diagnostics raised so far. -/
structure ApplyState where
  buf : Buf
  dynrels : List DynRel := []
  errs : List Diag := []

/-- Pass 1 of `InputSection::apply_reloc_alloc` for one relocation
    (lines 213-376).  `R_RISCV_ADD8` and `R_RISCV_SUB8` perform
    `loc += S + A` / `loc -= S + A`, which advance the local byte *pointer*
    rather than the byte it points to, so the buffer is left unchanged. -/
def applyOne (sec : Sec) (syms : List Symbol) (st : ApplyState) (j : RelJob) :
    ApplyState :=
  if j.rel.r_type = .R_RISCV_NONE then st else
  let sym := syms.getD j.rel.r_sym default
  let off := j.rel.r_offset
  let S : Int := sym.addr
  let A : Int := j.rel.r_addend
  let P : Int := (sec.secAddr + off : Nat)
  if j.needsDynrel then
    { st with
      buf := writeLE st.buf off 8 (toU64 A)
      dynrels := st.dynrels ++ [⟨toU64 P, .R_RISCV_64, sym.dynsymIdx, A⟩] }
  else if j.needsBaserel then
    { st with
      buf := writeLE st.buf off 8 (toU64 (S + A))
      dynrels :=
        if j.isRelr then st.dynrels
        else st.dynrels ++ [⟨toU64 P, .R_RISCV_RELATIVE, 0, S + A⟩] }
  else
    match j.rel.r_type with
    | .R_RISCV_32 => { st with buf := writeLE st.buf off 4 (toU64 (S + A)) }
    | .R_RISCV_64 => { st with buf := writeLE st.buf off 8 (toU64 (S + A)) }
    | .R_RISCV_TLS_DTPMOD32 | .R_RISCV_TLS_DTPMOD64
    | .R_RISCV_TLS_DTPREL32 | .R_RISCV_TLS_DTPREL64
    | .R_RISCV_TLS_TPREL32 | .R_RISCV_TLS_TPREL64 =>
        { st with errs := st.errs ++ [.unsupported] }
    | .R_RISCV_BRANCH =>
        { st with buf := writeLE st.buf off 4 (write_btype (readLE st.buf off 4) (toU64 (S + A - P) % 2 ^ 32)) }
    | .R_RISCV_JAL =>
        { st with buf := writeLE st.buf off 4 (write_jtype (readLE st.buf off 4) (toU64 (S + A - P) % 2 ^ 32)) }
    | .R_RISCV_CALL | .R_RISCV_CALL_PLT =>
        let val : Nat := if sym.isUndefWeak then 0 else toU64 (S + A - P)
        let buf1 := writeLE st.buf off 4 (write_utype (readLE st.buf off 4) (val % 2 ^ 32))
        { st with buf := writeLE buf1 (off + 4) 4 (write_itype (readLE buf1 (off + 4) 4) (val % 2 ^ 32)) } -- errata
    | .R_RISCV_GOT_HI20 =>
        let G : Int := (sym.gotAddr : Int) - sec.gotAddr
        let GOT : Int := sec.gotAddr
        { st with buf := writeLE st.buf off 4 (toU64 (G + GOT + A - P)) } -- errata
    | .R_RISCV_TLS_GOT_HI20 | .R_RISCV_TLS_GD_HI20 =>
        { st with errs := st.errs ++ [.unsupported] }
    | .R_RISCV_PCREL_HI20 =>
        if sym.isUndefWeak then
          -- Calling an undefined weak symbol jumps to the same instruction.
          { st with buf := writeLE st.buf off 4 (toU64 P) }
        else
          { st with buf := writeLE st.buf off 4 (toU64 (S + A - P)) }
    | .R_RISCV_PCREL_LO12_I =>
        { st with buf := writeLE st.buf off 4 (write_itype (readLE st.buf off 4) (readLE st.buf sym.value 4)) }
    | .R_RISCV_LO12_I | .R_RISCV_TPREL_LO12_I =>
        { st with buf := writeLE st.buf off 4 (write_itype (readLE st.buf off 4) (toU64 (S + A) % 2 ^ 32)) }
    | .R_RISCV_PCREL_LO12_S =>
        { st with buf := writeLE st.buf off 4 (write_stype (readLE st.buf off 4) (readLE st.buf sym.value 4)) }
    | .R_RISCV_LO12_S | .R_RISCV_TPREL_LO12_S =>
        { st with buf := writeLE st.buf off 4 (write_stype (readLE st.buf off 4) (toU64 (S + A) % 2 ^ 32)) }
    | .R_RISCV_HI20 =>
        { st with buf := writeLE st.buf off 4 (write_utype (readLE st.buf off 4) (toU64 (S + A) % 2 ^ 32)) }
    | .R_RISCV_TPREL_HI20 =>
        { st with buf := writeLE st.buf off 4 (write_utype (readLE st.buf off 4) (toU64 (S + A - sec.tlsBegin) % 2 ^ 32)) }
    | .R_RISCV_TPREL_ADD => st
    | .R_RISCV_ADD8 => st  -- loc += S + A: mutates the pointer, not the byte
    | .R_RISCV_ADD16 =>
        { st with buf := writeLE st.buf off 2 (readLE st.buf off 2 + toU64 (S + A)) }
    | .R_RISCV_ADD32 =>
        { st with buf := writeLE st.buf off 4 (readLE st.buf off 4 + toU64 (S + A)) }
    | .R_RISCV_ADD64 =>
        { st with buf := writeLE st.buf off 8 (readLE st.buf off 8 + toU64 (S + A)) }
    | .R_RISCV_SUB8 => st  -- loc -= S + A: mutates the pointer, not the byte
    | .R_RISCV_SUB16 =>
        { st with buf := writeLE st.buf off 2 (wrapSub (readLE st.buf off 2) (toU64 (S + A)) 16) }
    | .R_RISCV_SUB32 =>
        { st with buf := writeLE st.buf off 4 (wrapSub (readLE st.buf off 4) (toU64 (S + A)) 32) }
    | .R_RISCV_SUB64 =>
        { st with buf := writeLE st.buf off 8 (wrapSub (readLE st.buf off 8) (toU64 (S + A)) 64) }
    | .R_RISCV_ALIGN => st
    | .R_RISCV_RVC_BRANCH =>
        { st with buf := writeLE st.buf off 2 (write_cbtype (readLE st.buf off 2) (toU64 (S + A - P) % 2 ^ 32)) }
    | .R_RISCV_RVC_JUMP =>
        { st with buf := writeLE st.buf off 2 (write_cjtype (readLE st.buf off 2) (toU64 (S + A - P) % 2 ^ 32)) }
    | .R_RISCV_RVC_LUI => { st with errs := st.errs ++ [.unsupported] }
    | .R_RISCV_RELAX => st
    | .R_RISCV_SUB6 | .R_RISCV_SET6 | .R_RISCV_SET8
    | .R_RISCV_SET16 | .R_RISCV_SET32 | .R_RISCV_32_PCREL =>
        { st with errs := st.errs ++ [.unsupported] }
    | _ => { st with errs := st.errs ++ [.unknown] }

/-- Pass 2 of `apply_reloc_alloc` for one relocation (lines 382-395): restore
    a GOT_HI20 / PCREL_HI20 instruction word from the original input bytes and
    re-encode the stashed value as a proper U-type field. -/
def restoreOne (sec : Sec) (st : ApplyState) (j : RelJob) : ApplyState :=
  match j.rel.r_type with
  | .R_RISCV_GOT_HI20 | .R_RISCV_PCREL_HI20 =>
      let off := j.rel.r_offset
      let val := readLE st.buf off 4
      let buf1 := writeLE st.buf off 4 (readLE sec.contents off 4)
      { st with buf := writeLE buf1 off 4 (write_utype (readLE buf1 off 4) (val % 2 ^ 32)) }
  | _ => st

/-- Model of `InputSection::apply_reloc_alloc`: Pass 1 over all relocations in
    ascending order, then Pass 2 over the same list. -/
def apply_reloc_alloc (sec : Sec) (syms : List Symbol) (jobs : List RelJob)
    (st : ApplyState) : ApplyState :=
  jobs.foldl (restoreOne sec) (jobs.foldl (applyOne sec syms) st)

/-! ### Load/store lemmas for the byte buffer -/

theorem writeLE_out (buf : Buf) (off n val i : Nat) (h : i < off ∨ off + n ≤ i) :
    writeLE buf off n val i = buf i := by
  unfold writeLE
  rw [if_neg]
  omega

theorem writeLE_in (buf : Buf) (off n val k : Nat) (h : k < n) :
    writeLE buf off n val (off + k) = (val >>> (8 * k)) % 256 := by
  unfold writeLE
  rw [if_pos ⟨by omega, by omega⟩, Nat.add_sub_cancel_left]

theorem readLE_congr {buf1 buf2 : Buf} (off n : Nat)
    (h : ∀ i, off ≤ i → i < off + n → buf1 i = buf2 i) :
    readLE buf1 off n = readLE buf2 off n := by
  induction n generalizing off with
  | zero => rfl
  | succ m ih =>
      unfold readLE
      rw [h off (Nat.le_refl _) (by omega),
        ih (off + 1) (fun i h1 h2 => h i (by omega) (by omega))]

theorem readLE_writeLE_out (buf : Buf) (off n val off2 m : Nat)
    (h : off2 + m ≤ off ∨ off + n ≤ off2) :
    readLE (writeLE buf off n val) off2 m = readLE buf off2 m :=
  readLE_congr _ _ (fun i h1 h2 => writeLE_out _ _ _ _ _ (by omega))

theorem read32_write32 (buf : Buf) (off val : Nat) :
    readLE (writeLE buf off 4 val) off 4 = val % 2 ^ 32 := by
  have c0 : writeLE buf off 4 val off = val % 256 := by
    unfold writeLE
    rw [if_pos ⟨by omega, by omega⟩]
    norm_num
  have c1 : writeLE buf off 4 val (off + 1) = val / 2 ^ 8 % 256 := by
    unfold writeLE
    rw [if_pos ⟨by omega, by omega⟩]
    have h : off + 1 - off = 1 := by omega
    rw [h, Nat.shiftRight_eq_div_pow]
  have c2 : writeLE buf off 4 val (off + 1 + 1) = val / 2 ^ 16 % 256 := by
    unfold writeLE
    rw [if_pos ⟨by omega, by omega⟩]
    have h : off + 1 + 1 - off = 2 := by omega
    rw [h, Nat.shiftRight_eq_div_pow]
  have c3 : writeLE buf off 4 val (off + 1 + 1 + 1) = val / 2 ^ 24 % 256 := by
    unfold writeLE
    rw [if_pos ⟨by omega, by omega⟩]
    have h : off + 1 + 1 + 1 - off = 3 := by omega
    rw [h, Nat.shiftRight_eq_div_pow]
  simp only [readLE]
  rw [c0, c1, c2, c3]
  omega

theorem readLE_lt (buf : Buf) (h : ∀ i, buf i < 256) :
    ∀ n off, readLE buf off n < 256 ^ n := by
  intro n
  induction n with
  | zero => intro off; simp [readLE]
  | succ m ih =>
      intro off
      have h1 := h off
      have h2 := ih (off + 1)
      unfold readLE
      have : (256 : Nat) ^ (m + 1) = 256 * 256 ^ m := by ring
      rw [this]
      omega

theorem readLE4_lt (buf : Buf) (h : ∀ i, buf i < 256) (off : Nat) :
    readLE buf off 4 < 2 ^ 32 := by
  have := readLE_lt buf h 4 off
  norm_num at this ⊢
  omega

/-! ### C2: R_RISCV_ADD8 / R_RISCV_SUB8 in the allocated-section applier -/

/-- Modelled from the spec: §4.4 describes ADD8 as "simple add-in-place
    arithmetic on the existing buffer contents at the relocation's width":
    the byte at the relocation's offset becomes `byte + (S + A)` mod 256. -/
def add8_spec (buf : Buf) (off : Nat) (S : Nat) (A : Int) : Buf :=
  writeLE buf off 1 (toU64 (buf off + S + A))

/-- Modelled from the spec: §4.4's subtract-in-place counterpart of
    `add8_spec`: the byte becomes `byte - (S + A)` mod 256. -/
def sub8_spec (buf : Buf) (off : Nat) (S : Nat) (A : Int) : Buf :=
  writeLE buf off 1 (toU64 (buf off - (S + A)))

/-- C2: the applier's `R_RISCV_ADD8` / `R_RISCV_SUB8` arms compute
    `loc += S + A` / `loc -= S + A` on the local byte pointer, so the buffer
    byte (here initially 5, with `S + A = 1`) is left unchanged, while the
    add/subtract-in-place semantics the spec states would give 6 and 4. -/
theorem add8_sub8_leave_buffer_unchanged :
    (applyOne ⟨0, fun _ => 0, 0, 0⟩ [{ addr := 1 }] { buf := fun _ => 5 }
      ⟨⟨0, .R_RISCV_ADD8, 0, 0⟩, false, false, false⟩).buf 0 = 5 ∧
    (applyOne ⟨0, fun _ => 0, 0, 0⟩ [{ addr := 1 }] { buf := fun _ => 5 }
      ⟨⟨0, .R_RISCV_SUB8, 0, 0⟩, false, false, false⟩).buf 0 = 5 ∧
    add8_spec (fun _ => 5) 0 1 0 0 = 6 ∧
    sub8_spec (fun _ => 5) 0 1 0 0 = 4 := by
  refine ⟨rfl, rfl, ?_, ?_⟩ <;> decide

/-! ### C3: dynamic-relocation slot consumption -/

/-- C3 (amended): a relocation flagged `needs_dynrel` appends exactly one
    dynamic-relocation record, and one flagged `needs_baserel` appends exactly
    one unless it is covered by the RELR encoding, in which case it appends
    none. -/
theorem dynrel_baserel_slot_count (sec : Sec) (syms : List Symbol)
    (st : ApplyState) (j : RelJob) (hn : j.rel.r_type ≠ .R_RISCV_NONE) :
    (j.needsDynrel = true →
      (applyOne sec syms st j).dynrels.length = st.dynrels.length + 1) ∧
    (j.needsDynrel = false → j.needsBaserel = true → j.isRelr = false →
      (applyOne sec syms st j).dynrels.length = st.dynrels.length + 1) ∧
    (j.needsDynrel = false → j.needsBaserel = true → j.isRelr = true →
      (applyOne sec syms st j).dynrels.length = st.dynrels.length) := by
  refine ⟨?_, ?_, ?_⟩
  · intro h1
    simp [applyOne, hn, h1]
  · intro h1 h2 h3
    simp [applyOne, hn, h1, h2, h3]
  · intro h1 h2 h3
    simp [applyOne, hn, h1, h2, h3]

/-- C3 witness: a `needs_dynrel` relocation at a concrete input consumes one
    slot. -/
theorem dynrel_baserel_slot_count_witness :
    ((⟨0, .R_RISCV_64, 0, 0⟩ : ElfRel).r_type ≠ .R_RISCV_NONE) ∧
    (applyOne ⟨0, fun _ => 0, 0, 0⟩ [] { buf := fun _ => 0 }
      ⟨⟨0, .R_RISCV_64, 0, 0⟩, true, false, false⟩).dynrels.length = 0 + 1 :=
  ⟨by decide,
   (dynrel_baserel_slot_count ⟨0, fun _ => 0, 0, 0⟩ [] { buf := fun _ => 0 }
      ⟨⟨0, .R_RISCV_64, 0, 0⟩, true, false, false⟩ (by decide)).1 rfl⟩

/-- C3 counterexample: a base relocation covered by the RELR encoding appends
    no record, contradicting "exactly one slot consumed per such relocation". -/
theorem baserel_relr_consumes_no_slot :
    (applyOne ⟨0, fun _ => 0, 0, 0⟩ [] { buf := fun _ => 0 }
      ⟨⟨0, .R_RISCV_64, 0, 0⟩, false, true, true⟩).dynrels.length ≠ 0 + 1 := by
  decide

/-! ### C4: consistency of the unsupported-relocation set -/

/-- The relocation kinds the claim lists as unsupported, minus
    `R_RISCV_32_PCREL`. -/
def unsupportedKinds : List RType :=
  [.R_RISCV_TLS_DTPMOD32, .R_RISCV_TLS_DTPMOD64, .R_RISCV_TLS_DTPREL32,
   .R_RISCV_TLS_DTPREL64, .R_RISCV_TLS_TPREL32, .R_RISCV_TLS_TPREL64,
   .R_RISCV_TLS_GOT_HI20, .R_RISCV_TLS_GD_HI20, .R_RISCV_RVC_LUI,
   .R_RISCV_SUB6, .R_RISCV_SET6, .R_RISCV_SET8, .R_RISCV_SET16,
   .R_RISCV_SET32]

/-- C4 (amended): every kind in `unsupportedKinds` raises the "unsupported
    relocation" diagnostic both in `scan_relocations` (for every output kind
    and symbol category) and in `apply_reloc_alloc` (for every state, when the
    relocation is not redirected to the dynrel/baserel paths).
    `R_RISCV_32_PCREL` is excluded: the applier always rejects it, but the
    classifier dispatches it through an Action table. -/
theorem unsupported_kinds_consistent (t : RType) (ht : t ∈ unsupportedKinds)
    (imp : Bool) (row : OutputKind) (col : SymClass)
    (sec : Sec) (syms : List Symbol) (st : ApplyState) (j : RelJob)
    (hj : j.rel.r_type = t) (h1 : j.needsDynrel = false)
    (h2 : j.needsBaserel = false) :
    scan_relocations_case t imp row col = .unsupportedError ∧
    (applyOne sec syms st j).errs = st.errs ++ [.unsupported] := by
  fin_cases ht <;> exact ⟨rfl, by simp [applyOne, hj, h1, h2]⟩

/-- C4 witness: the amended consistency at `R_RISCV_RVC_LUI`, PDE output,
    local non-imported symbol, empty initial state. -/
theorem unsupported_kinds_consistent_witness :
    (RType.R_RISCV_RVC_LUI ∈ unsupportedKinds) ∧
    scan_relocations_case .R_RISCV_RVC_LUI false .PDE .Local = .unsupportedError ∧
    (applyOne ⟨0, fun _ => 0, 0, 0⟩ [] { buf := fun _ => 0 }
      ⟨⟨0, .R_RISCV_RVC_LUI, 0, 0⟩, false, false, false⟩).errs =
      ([] : List Diag) ++ [.unsupported] := by
  have h := unsupported_kinds_consistent .R_RISCV_RVC_LUI (by decide) false .PDE
    .Local ⟨0, fun _ => 0, 0, 0⟩ [] { buf := fun _ => 0 }
    ⟨⟨0, .R_RISCV_RVC_LUI, 0, 0⟩, false, false, false⟩ rfl rfl rfl
  exact ⟨by decide, h.1, h.2⟩

/-- C4 counterexample: `R_RISCV_32_PCREL` is in the claim's unsupported set,
    yet at scan time (PDE output, local symbol) it is dispatched through an
    Action table with no diagnostic, while apply time raises one. -/
theorem pcrel32_scan_apply_differ :
    scan_relocations_case .R_RISCV_32_PCREL false .PDE .Local ≠ .unsupportedError ∧
    scan_relocations_case .R_RISCV_32_PCREL false .PDE .Local = .act .noFlag ∧
    (applyOne ⟨0, fun _ => 0, 0, 0⟩ [] { buf := fun _ => 0 }
      ⟨⟨0, .R_RISCV_32_PCREL, 0, 0⟩, false, false, false⟩).errs = [.unsupported] := by
  refine ⟨by decide, rfl, rfl⟩

/-! ### C8: the unwind-table applier's 6-bit variants -/

/-- Model of `EhFrameSection::apply_reloc` (lines 166-200).  `secAddr` is
    `shdr.sh_addr`; `none` models the fatal "unsupported relocation in
    .eh_frame" diagnostic. -/
def eh_apply_reloc (secAddr : Nat) (t : RType) (offset val : Nat)
    (buf : Buf) : Option Buf :=
  match t with
  | .R_RISCV_ADD32 => some (writeLE buf offset 4 (readLE buf offset 4 + val))
  | .R_RISCV_SUB8 => some (writeLE buf offset 1 (wrapSub (readLE buf offset 1) val 8))
  | .R_RISCV_SUB16 => some (writeLE buf offset 2 (wrapSub (readLE buf offset 2) val 16))
  | .R_RISCV_SUB32 => some (writeLE buf offset 4 (wrapSub (readLE buf offset 4) val 32))
  | .R_RISCV_SUB6 =>
      some (writeLE buf offset 1 (wrapSub (readLE buf offset 1) val 64 &&& 0b111111))
  | .R_RISCV_SET6 =>
      some (writeLE buf offset 1 (((readLE buf offset 1 + val) % 2 ^ 64) &&& 0b111111))
  | .R_RISCV_SET8 => some (writeLE buf offset 1 val)
  | .R_RISCV_SET16 => some (writeLE buf offset 2 val)
  | .R_RISCV_32_PCREL =>
      some (writeLE buf offset 4 (wrapSub val (secAddr + offset) 64))
  | _ => none

/-- Modelled from the spec: §4.5's 6-bit masked subtract — the low six bits
    become the subtraction modulo 64 and the top two bits of the byte are
    preserved. -/
def sub6_spec (b v : Nat) : Nat := (b &&& 0b11000000) ||| wrapSub b v 6

/-- Modelled from the spec: §4.5's 6-bit masked set — the low six bits are set
    to `v` modulo 64 and the top two bits of the byte are preserved. -/
def set6_spec (b v : Nat) : Nat := (b &&& 0b11000000) ||| (v &&& 0b111111)

/-- C8: `R_RISCV_SUB6` clears the top two bits of the byte instead of
    preserving them (byte `0xFF` minus 1 gives `0x3E`, not `0xFE`), and
    `R_RISCV_SET6` adds to the masked byte instead of setting it, also
    clearing the top two bits (byte `0x40` with value 1 gives `0x01`,
    not `0x41`). -/
theorem eh_sub6_set6_clear_top_bits :
    Option.map (fun b => b 0)
      (eh_apply_reloc 0 .R_RISCV_SUB6 0 1 (fun _ => 0xFF)) = some 0x3E ∧
    sub6_spec 0xFF 1 = 0xFE ∧
    Option.map (fun b => b 0)
      (eh_apply_reloc 0 .R_RISCV_SET6 0 1 (fun _ => 0x40)) = some 0x01 ∧
    set6_spec 0x40 1 = 0x41 := by
  refine ⟨rfl, by decide, rfl, by decide⟩

/-! ### C7: call-class relocations and undefined-weak targets -/

/-- C7: for `R_RISCV_CALL` / `R_RISCV_CALL_PLT` the applier writes
    `val = 0` when the target is undefined-weak, else `val = S + A - P`,
    splitting `val` across the U-type instruction at the relocation's offset
    and the I-type instruction four bytes later; the I-type half carries the
    full low 12 bits of `val`, and for the undefined-weak case both immediate
    fields are zero. -/
theorem call_undef_weak_zero_displacement
    (sec : Sec) (sym : Symbol) (st : ApplyState) (t : RType) (off : Nat)
    (A : Int) (val : Nat) (buf1 : Buf)
    (ht : t = .R_RISCV_CALL ∨ t = .R_RISCV_CALL_PLT)
    (hval : val = if sym.isUndefWeak then 0
      else toU64 ((sym.addr : Int) + A - ((sec.secAddr + off : Nat) : Int)))
    (hbuf : buf1 = (applyOne sec [sym] st
      ⟨⟨off, t, 0, A⟩, false, false, false⟩).buf) :
    bits (readLE buf1 off 4) 31 12 = bits (val % 2 ^ 32 + 0x800) 31 12 ∧
    bits (readLE buf1 (off + 4) 4) 31 20 = val % 2 ^ 12 ∧
    (sym.isUndefWeak = true →
      bits (readLE buf1 off 4) 31 12 = 0 ∧
      bits (readLE buf1 (off + 4) 4) 31 20 = 0) := by
  have hb : buf1 =
      writeLE (writeLE st.buf off 4 (write_utype (readLE st.buf off 4) (val % 2 ^ 32)))
        (off + 4) 4
        (write_itype
          (readLE
            (writeLE st.buf off 4 (write_utype (readLE st.buf off 4) (val % 2 ^ 32)))
            (off + 4) 4)
          (val % 2 ^ 32)) := by
    subst hbuf
    rcases ht with h | h <;> subst h <;> cases hw : sym.isUndefWeak <;>
      simp [applyOne, hval, hw]
  have hr1 : readLE buf1 off 4 = write_utype (readLE st.buf off 4) (val % 2 ^ 32) := by
    rw [hb, readLE_writeLE_out _ _ _ _ _ _ (Or.inl (Nat.le_refl _)), read32_write32,
      Nat.mod_eq_of_lt (write_utype_lt _ _)]
  have hr2 : readLE buf1 (off + 4) 4 =
      write_itype
        (readLE (writeLE st.buf off 4 (write_utype (readLE st.buf off 4) (val % 2 ^ 32)))
          (off + 4) 4)
        (val % 2 ^ 32) := by
    rw [hb, read32_write32, Nat.mod_eq_of_lt (write_itype_lt _ _)]
  have e20 : (31 - 12 + 1 : Nat) = 20 := rfl
  refine ⟨?_, ?_, ?_⟩
  · rw [hr1, bits_write_utype, bits_eq, e20]
    have h1 : val % 2 ^ 32 < 2 ^ 32 := by omega
    omega
  · rw [hr2, bits_write_itype]
    omega
  · intro hw
    have hv0 : val = 0 := by simp [hval, hw]
    constructor
    · rw [hr1, bits_write_utype, hv0]
      decide
    · rw [hr2, bits_write_itype, hv0]
      decide

/-- C7 witness: the spec's end-to-end call scenario — call site `0x1000`,
    target `0x2000`, so both halves encode `val = 0x1000`. -/
theorem call_undef_weak_zero_displacement_witness :
    bits (readLE ((applyOne ⟨0x1000, fun _ => 0, 0, 0⟩ [{ addr := 0x2000 }]
        { buf := fun _ => 0 }
        ⟨⟨0, .R_RISCV_CALL_PLT, 0, 0⟩, false, false, false⟩).buf) 0 4) 31 12 =
      bits (0x1000 % 2 ^ 32 + 0x800) 31 12 ∧
    bits (readLE ((applyOne ⟨0x1000, fun _ => 0, 0, 0⟩ [{ addr := 0x2000 }]
        { buf := fun _ => 0 }
        ⟨⟨0, .R_RISCV_CALL_PLT, 0, 0⟩, false, false, false⟩).buf) (0 + 4) 4) 31 20 =
      0x1000 % 2 ^ 12 := by
  have h := call_undef_weak_zero_displacement ⟨0x1000, fun _ => 0, 0, 0⟩
    { addr := 0x2000 } { buf := fun _ => 0 } .R_RISCV_CALL_PLT 0 0 0x1000 _
    (Or.inr rfl) (by decide) rfl
  exact ⟨h.1, h.2.1⟩

/-! ### C1: HI20/LO12 pairs — two-pass stash/restore vs. direct single pass -/

theorem restoreOne_hi20 (sec : Sec) (b : Buf) (d : List DynRel) (er : List Diag)
    (j : RelJob)
    (h : j.rel.r_type = .R_RISCV_GOT_HI20 ∨ j.rel.r_type = .R_RISCV_PCREL_HI20) :
    restoreOne sec ⟨b, d, er⟩ j =
      ⟨writeLE (writeLE b j.rel.r_offset 4 (readLE sec.contents j.rel.r_offset 4))
          j.rel.r_offset 4
          (write_utype
            (readLE (writeLE b j.rel.r_offset 4 (readLE sec.contents j.rel.r_offset 4))
              j.rel.r_offset 4)
            (readLE b j.rel.r_offset 4 % 2 ^ 32)), d, er⟩ := by
  obtain ⟨⟨o, t, s, a⟩, nd, nb, ir⟩ := j
  dsimp at h
  rcases h with h | h <;> subst h <;> rfl

theorem restoreOne_skip (sec : Sec) (st : ApplyState) (j : RelJob)
    (h : j.rel.r_type = .R_RISCV_PCREL_LO12_I) :
    restoreOne sec st j = st := by
  obtain ⟨⟨o, t, s, a⟩, nd, nb, ir⟩ := j
  dsimp at h
  subst h
  rfl

/-- The direct single-pass U/I split the spec describes: encode the U-type
    field of `delta` into the HI20 word and the I-type field of `delta` into
    the LO12 word, with no intermediate stash/restore. -/
def singlePassHiLo (buf : Buf) (p1 p2 delta : Nat) : Buf :=
  let b1 := writeLE buf p1 4 (write_utype (readLE buf p1 4) (delta % 2 ^ 32))
  writeLE b1 p2 4 (write_itype (readLE b1 p2 4) (delta % 2 ^ 32))

/-- C1: for a HI20 relocation (PCREL or GOT form) at `p1` paired with a
    `R_RISCV_PCREL_LO12_I` at `p2 ≥ p1 + 4` in the same section (the LO12's
    symbol `value` pointing back at `p1`), the two-pass applier (stash the
    full 32-bit delta, then restore the HI20 word from the original input
    bytes) produces the same buffer as the direct single-pass U/I split, the
    LO12 immediate field holds the low 12 bits of the delta, and the HI20
    immediate field holds the high 20 bits of `delta + 0x800`. -/
theorem hi20_lo12_pair_matches_single_pass
    (sec : Sec) (sym hsym : Symbol) (p1 p2 : Nat) (tHi : RType) (A Alo : Int)
    (buf0 : Buf) (dyn0 : List DynRel) (errs0 : List Diag) (delta : Nat)
    (final : Buf) (i : Nat)
    (ht : tHi = .R_RISCV_PCREL_HI20 ∨ tHi = .R_RISCV_GOT_HI20)
    (hw : sym.isUndefWeak = false)
    (hsv : hsym.value = p1)
    (hord : p1 + 4 ≤ p2)
    (hb : ∀ k, buf0 k = sec.contents k)
    (hc : ∀ k, sec.contents k < 256)
    (hdelta : delta = if tHi = .R_RISCV_PCREL_HI20
      then toU64 ((sym.addr : Int) + A - ((sec.secAddr + p1 : Nat) : Int))
      else toU64 (((sym.gotAddr : Int) - sec.gotAddr) + (sec.gotAddr : Int) + A -
        ((sec.secAddr + p1 : Nat) : Int)))
    (hfin : final = (apply_reloc_alloc sec [sym, hsym]
      [⟨⟨p1, tHi, 0, A⟩, false, false, false⟩,
       ⟨⟨p2, .R_RISCV_PCREL_LO12_I, 1, Alo⟩, false, false, false⟩]
      ⟨buf0, dyn0, errs0⟩).buf) :
    final i = singlePassHiLo buf0 p1 p2 delta i ∧
    bits (readLE final p2 4) 31 20 = delta % 2 ^ 12 ∧
    bits (readLE final p1 4) 31 12 = bits (delta % 2 ^ 32 + 0x800) 31 12 := by
  have e1 : applyOne sec [sym, hsym] ⟨buf0, dyn0, errs0⟩
      ⟨⟨p1, tHi, 0, A⟩, false, false, false⟩ = ⟨writeLE buf0 p1 4 delta, dyn0, errs0⟩ := by
    rcases ht with h | h <;> subst h <;> simp [applyOne, hw, hdelta]
  have e2 : applyOne sec [sym, hsym] ⟨writeLE buf0 p1 4 delta, dyn0, errs0⟩
      ⟨⟨p2, .R_RISCV_PCREL_LO12_I, 1, Alo⟩, false, false, false⟩ =
      ⟨writeLE (writeLE buf0 p1 4 delta) p2 4
        (write_itype (readLE buf0 p2 4) (delta % 2 ^ 32)), dyn0, errs0⟩ := by
    simp [applyOne, hsv, read32_write32 buf0 p1 delta,
      readLE_writeLE_out buf0 p1 4 delta p2 4 (Or.inr hord)]
  simp only [apply_reloc_alloc, List.foldl_cons, List.foldl_nil] at hfin
  rw [e1, e2, restoreOne_hi20 sec _ dyn0 errs0 _ ht.symm,
    restoreOne_skip sec _ ⟨⟨p2, .R_RISCV_PCREL_LO12_I, 1, Alo⟩, false, false, false⟩ rfl]
    at hfin
  dsimp only at hfin
  have rB2p1 : readLE (writeLE (writeLE buf0 p1 4 delta) p2 4
      (write_itype (readLE buf0 p2 4) (delta % 2 ^ 32))) p1 4 = delta % 2 ^ 32 := by
    rw [readLE_writeLE_out _ _ _ _ _ _ (Or.inl hord), read32_write32]
  rw [rB2p1] at hfin
  have rA : readLE (writeLE (writeLE (writeLE buf0 p1 4 delta) p2 4
      (write_itype (readLE buf0 p2 4) (delta % 2 ^ 32))) p1 4
        (readLE sec.contents p1 4)) p1 4 = readLE sec.contents p1 4 := by
    rw [read32_write32]
    exact Nat.mod_eq_of_lt (readLE4_lt sec.contents hc p1)
  rw [rA] at hfin
  have hmm : delta % 2 ^ 32 % 2 ^ 32 = delta % 2 ^ 32 := by omega
  rw [hmm] at hfin
  have e20 : (31 - 12 + 1 : Nat) = 20 := rfl
  refine ⟨?_, ?_, ?_⟩
  · rw [hfin]
    simp only [singlePassHiLo]
    rw [readLE_congr p1 4 (fun k h1 h2 => hb k),
      readLE_writeLE_out buf0 p1 4
        (write_utype (readLE sec.contents p1 4) (delta % 2 ^ 32)) p2 4 (Or.inr hord)]
    simp only [writeLE]
    split_ifs <;> first | rfl | omega
  · rw [hfin,
      readLE_writeLE_out _ p1 4 _ p2 4 (Or.inr hord),
      readLE_writeLE_out _ p1 4 _ p2 4 (Or.inr hord),
      read32_write32,
      Nat.mod_eq_of_lt (write_itype_lt _ _),
      bits_write_itype]
    omega
  · rw [hfin, read32_write32, Nat.mod_eq_of_lt (write_utype_lt _ _),
      bits_write_utype, bits_eq, e20]
    have h1 : delta % 2 ^ 32 < 2 ^ 32 := by omega
    omega

/-- C1 witness: a concrete PCREL_HI20 at offset 0 paired with a PCREL_LO12_I
    at offset 4, section address `0x1000`, target `0x2000`, input bytes all
    `0x13`. -/
theorem hi20_lo12_pair_matches_single_pass_witness :
    (apply_reloc_alloc ⟨0x1000, fun _ => 0x13, 0, 0⟩
        [{ addr := 0x2000 }, { value := 0 }]
        [⟨⟨0, .R_RISCV_PCREL_HI20, 0, 0⟩, false, false, false⟩,
         ⟨⟨4, .R_RISCV_PCREL_LO12_I, 1, 0⟩, false, false, false⟩]
        ⟨fun _ => 0x13, [], []⟩).buf 4 =
      singlePassHiLo (fun _ => 0x13) 0 4 0x1000 4 ∧
    bits (readLE (apply_reloc_alloc ⟨0x1000, fun _ => 0x13, 0, 0⟩
        [{ addr := 0x2000 }, { value := 0 }]
        [⟨⟨0, .R_RISCV_PCREL_HI20, 0, 0⟩, false, false, false⟩,
         ⟨⟨4, .R_RISCV_PCREL_LO12_I, 1, 0⟩, false, false, false⟩]
        ⟨fun _ => 0x13, [], []⟩).buf 4 4) 31 20 = 0x1000 % 2 ^ 12 ∧
    bits (readLE (apply_reloc_alloc ⟨0x1000, fun _ => 0x13, 0, 0⟩
        [{ addr := 0x2000 }, { value := 0 }]
        [⟨⟨0, .R_RISCV_PCREL_HI20, 0, 0⟩, false, false, false⟩,
         ⟨⟨4, .R_RISCV_PCREL_LO12_I, 1, 0⟩, false, false, false⟩]
        ⟨fun _ => 0x13, [], []⟩).buf 0 4) 31 12 =
      bits (0x1000 % 2 ^ 32 + 0x800) 31 12 :=
  hi20_lo12_pair_matches_single_pass ⟨0x1000, fun _ => 0x13, 0, 0⟩
    { addr := 0x2000 } { value := 0 } 0 4 .R_RISCV_PCREL_HI20 0 0
    (fun _ => 0x13) [] [] 0x1000 _ 4 (Or.inl rfl) rfl rfl (by omega)
    (fun k => rfl) (fun k => by norm_num) (by decide) rfl

/-! ### C10: PLT header vs. PLT-via-GOT entry placement -/

/-- Write a list of 32-bit instruction words at consecutive word offsets
    (the `memcpy` of an instruction template). -/
def writeWords (buf : Buf) (off : Nat) : List Nat → Buf
  | [] => buf
  | w :: ws => writeWords (writeLE buf off 4 w) (off + 4) ws

/-- The 8-instruction PLT header template `plt0` (lines 97-106). -/
def plt0 : List Nat :=
  [0x00000397, 0x41c30333, 0x0003be03, 0xfd430313,
   0x00038293, 0x00135313, 0x0082b283, 0x000e0067]

/-- Model of `write_plt_header` (lines 94-115): copy `plt0` to the start of the `.plt`
    section's file image at `pltOff`, then patch words 0, 2 and 4 with
    `gotplt - plt`. -/
def write_plt_header (pltOff gotplt plt : Nat) (buf : Buf) : Buf :=
  let d := wrapSub gotplt plt 64
  let b1 := writeWords buf pltOff plt0
  let b2 := writeLE b1 pltOff 4 (write_utype (readLE b1 pltOff 4) (d % 2 ^ 32))
  let b3 := writeLE b2 (pltOff + 8) 4 (write_itype (readLE b2 (pltOff + 8) 4) (d % 2 ^ 32))
  writeLE b3 (pltOff + 16) 4 (write_itype (readLE b3 (pltOff + 16) 4) (d % 2 ^ 32))

/-- The 4-instruction PLT-via-GOT entry template (lines 147-152). -/
def pltgot_template : List Nat :=
  [0x00000e17, 0x000e3e03, 0x000e0367, 0x00000013]

/-- The loop body of `PltGotSection::copy_buf` (lines 154-162) for one symbol
    with PLT-via-GOT index `idx`: the entry is placed at
    `buf + get_pltgot_idx * 4` 32-bit words — i.e. byte offset `idx * 16` from
    `ctx.plt->shdr.sh_offset` itself, with no room reserved for the 32-byte
    PLT header written at that same base. -/
def pltgot_copy_one (pltOff idx got plt : Nat) (buf : Buf) : Buf :=
  let entOff := pltOff + idx * 16
  let d := wrapSub got plt 64
  let b1 := writeWords buf entOff pltgot_template
  let b2 := writeLE b1 entOff 4 (write_utype (readLE b1 entOff 4) (d % 2 ^ 32))
  writeLE b2 (entOff + 4) 4 (write_itype (readLE b2 (entOff + 4) 4) (d % 2 ^ 32))

/-- C10: for `idx ≤ 1` the byte `pltOff + idx*16 + 12` lies inside the PLT
    header's 32-byte range, yet the PLT-via-GOT entry writer also writes it
    (with the low byte of its `nop`, `0x13`), while the header writer puts a
    template byte of its own there — the two writers' byte ranges overlap. -/
theorem pltgot_entry_overlaps_plt_header
    (pltOff gotplt plt got pltaddr idx : Nat) (buf : Buf) (h : idx ≤ 1) :
    pltOff ≤ pltOff + idx * 16 + 12 ∧
    pltOff + idx * 16 + 12 < pltOff + 32 ∧
    pltgot_copy_one pltOff idx got pltaddr buf (pltOff + idx * 16 + 12) = 0x13 ∧
    write_plt_header pltOff gotplt plt buf (pltOff + idx * 16 + 12) =
      (if idx = 0 then 0x13 else 0x67) := by
  have hcase : idx = 0 ∨ idx = 1 := by omega
  rcases hcase with h0 | h0 <;> subst h0 <;>
    refine ⟨by omega, by omega, ?_, ?_⟩ <;>
    · simp only [pltgot_copy_one, write_plt_header, writeWords, plt0,
        pltgot_template, writeLE]
      norm_num
      try split_ifs <;> first | rfl | omega

/-- C10 witness: at `idx = 0` (and `pltOff = 0`) the entry writer and the
    header writer both write byte 12, inside the header's `[0, 32)` range. -/
theorem pltgot_entry_overlaps_plt_header_witness :
    (0 : Nat) ≤ 1 ∧
    ((0 : Nat) ≤ 0 + 0 * 16 + 12 ∧
     0 + 0 * 16 + 12 < 0 + 32 ∧
     pltgot_copy_one 0 0 0 0 (fun _ => 0) (0 + 0 * 16 + 12) = 0x13 ∧
     write_plt_header 0 0 0 (fun _ => 0) (0 + 0 * 16 + 12) =
       (if (0 : Nat) = 0 then 0x13 else 0x67)) :=
  ⟨by omega,
   pltgot_entry_overlaps_plt_header 0 0 0 0 0 0 (fun _ => 0) (by omega)⟩

end Mold.RiscV64
